import Mathlib

/-!
Verification of the outbound API client core of the woovi-mcp repository:
the sensitive-data masker (packages/server/src/server.ts, utils/masking),
the TTL response cache (SimpleCache), the logger emit path, and the
request executor (WooviClient.makeRequest) together with the client
constructor and the getBalance facade operation.

JSON values are modelled by a mutual inductive type (JS numbers are
modelled as integers; the claims under verification never exercise
fractional numerics).  JavaScript objects are modelled as ordered field
lists; JS runtime objects produced by Object.entries never contain a
duplicate key.
-/

mutual

/-- Model of a JavaScript JSON value (null, boolean, number, string, array, object). -/
inductive Json where
  | null : Json
  | bool (b : Bool) : Json
  | num (n : Int) : Json
  | str (s : String) : Json
  | arr (items : JsonArr) : Json
  | obj (fields : JsonObj) : Json

/-- Model of a JavaScript array of JSON values. -/
inductive JsonArr where
  | nil : JsonArr
  | cons (hd : Json) (tl : JsonArr) : JsonArr

/-- Model of a JavaScript object: an ordered list of key/value fields. -/
inductive JsonObj where
  | nil : JsonObj
  | cons (key : String) (val : Json) (tl : JsonObj) : JsonObj

end

/-- Builds a JsonArr from a Lean list literal. -/
def jarr : List Json → JsonArr
  | [] => .nil
  | x :: xs => .cons x (jarr xs)

/-- Builds a JsonObj from a Lean list of key/value pairs. -/
def jobj : List (String × Json) → JsonObj
  | [] => .nil
  | (k, v) :: xs => .cons k v (jobj xs)

/-- Property access o[k]: the value of the first field named k (JS objects
have unique keys), or none when the property is absent (undefined). -/
def JsonObj.lookup : JsonObj → String → Option Json
  | .nil, _ => none
  | .cons k v tl, key => if k = key then some v else tl.lookup key

/-- JavaScript truthiness of a JSON value. -/
def jsTruthy : Json → Bool
  | .null => false
  | .bool b => b
  | .num n => n != 0
  | .str s => s != ""
  | .arr _ => true
  | .obj _ => true

mutual

/-- JavaScript String(x) conversion of a JSON value. -/
def jsToString : Json → String
  | .null => "null"
  | .bool b => if b then "true" else "false"
  | .num n => toString n
  | .str s => s
  | .arr items => jsArrToString items
  | .obj _ => "[object Object]"

/-- JavaScript Array.prototype.toString: elements joined with a comma,
null elements rendered as the empty string. -/
def jsArrToString : JsonArr → String
  | .nil => ""
  | .cons .null .nil => ""
  | .cons hd .nil => jsToString hd
  | .cons .null tl => "," ++ jsArrToString tl
  | .cons hd tl => jsToString hd ++ "," ++ jsArrToString tl

end

/-! ## Sensitive-data masker (packages/server/src/server.ts, maskTaxID / maskPhone / maskSensitiveData) -/

/-- Transcribes maskTaxID: values of length at most 4 (including the empty
string, which is falsy) are returned unchanged; otherwise all but the last
4 characters are replaced by an equal-length run of asterisks. -/
def maskTaxID (value : String) : String :=
  if value.length ≤ 4 then value
  else String.mk (List.replicate (value.length - 4) '*' ++ value.toList.drop (value.length - 4))

/-- Transcribes maskPhone, whose body is identical to maskTaxID. -/
def maskPhone (value : String) : String :=
  if value.length ≤ 4 then value
  else String.mk (List.replicate (value.length - 4) '*' ++ value.toList.drop (value.length - 4))

/-- Character for one decimal digit (argument taken modulo the 0..9 range by clamping). -/
def digitChar (d : Nat) : Char :=
  if d = 0 then '0' else if d = 1 then '1' else if d = 2 then '2'
  else if d = 3 then '3' else if d = 4 then '4' else if d = 5 then '5'
  else if d = 6 then '6' else if d = 7 then '7' else if d = 8 then '8' else '9'

/-- Decimal digit list of a natural number, most significant digit first,
prepended to an accumulator. -/
def natKeyAux (n : Nat) (acc : List Char) : List Char :=
  if n < 10 then digitChar n :: acc
  else natKeyAux (n / 10) (digitChar (n % 10) :: acc)
termination_by n
decreasing_by exact Nat.div_lt_self (by omega) (by omega)

/-- String key a JavaScript array index becomes when an array is spread
into an object literal. -/
def natKey (n : Nat) : String := String.mk (natKeyAux n [])

/-- Spread of a JavaScript array into an object literal: index keys 0, 1, ...
(starting from i) with the elements as values, copied verbatim. -/
def spreadArrayFrom (i : Nat) : JsonArr → JsonObj
  | .nil => .nil
  | .cons hd tl => .cons (natKey i) hd (spreadArrayFrom (i + 1) tl)

/-- Replaces the value of every field named taxID by the given masked
string, keeping field order; models the spread override
in the structured-taxID branch of maskSensitiveData (JS objects have
unique keys, so exactly the one taxID field is overridden). -/
def overrideTaxID : JsonObj → String → JsonObj
  | .nil, _ => .nil
  | .cons k v tl, m =>
      if k = "taxID" then .cons k (.str m) (overrideTaxID tl m)
      else .cons k v (overrideTaxID tl m)

/-- Structured-taxID branch of maskSensitiveData for an object value:
when the inner taxID property is a string it is masked in place and all
sibling fields are copied verbatim (shallow spread); otherwise the object
is copied verbatim. -/
def maskStructuredFields (f : JsonObj) : Json :=
  match f.lookup "taxID" with
  | some (.str t) => .obj (overrideTaxID f (maskTaxID t))
  | _ => .obj f

mutual

/-- Transcribes maskSensitiveData: null and non-object scalars returned
unchanged, arrays masked element-wise, objects masked field-wise. -/
def maskSensitiveData : Json → Json
  | .null => .null
  | .bool b => .bool b
  | .num n => .num n
  | .str s => .str s
  | .arr items => .arr (maskArr items)
  | .obj fields => .obj (maskObj fields)

/-- Element-wise masking of an array (data.map(maskSensitiveData)). -/
def maskArr : JsonArr → JsonArr
  | .nil => .nil
  | .cons hd tl => .cons (maskSensitiveData hd) (maskArr tl)

/-- Field-wise masking of an object (the for-of loop over Object.entries). -/
def maskObj : JsonObj → JsonObj
  | .nil => .nil
  | .cons k v tl => .cons k (maskFieldValue k v) (maskObj tl)

/-- Branch dispatch of the maskSensitiveData loop body for one key/value pair:
a string taxID or phone is masked; an object (or array, whose typeof is
also object) under the taxID key takes the structured branch, where an
array is spread into an index-keyed object; any other object, array or
null value recurses (typeof null is object in JS, and masking null yields
null); remaining scalars are copied verbatim. -/
def maskFieldValue (k : String) : Json → Json
  | .str s =>
      if k = "taxID" then .str (maskTaxID s)
      else if k = "phone" then .str (maskPhone s)
      else .str s
  | .obj f =>
      if k = "taxID" then maskStructuredFields f
      else .obj (maskObj f)
  | .arr items =>
      if k = "taxID" then .obj (spreadArrayFrom 0 items)
      else .arr (maskArr items)
  | .null => .null
  | .bool b => .bool b
  | .num n => .num n

end

/-! ## Properties of the masker -/

theorem maskPhone_eq_maskTaxID (s : String) : maskPhone s = maskTaxID s := rfl

theorem maskTaxID_idem (s : String) : maskTaxID (maskTaxID s) = maskTaxID s := by
  by_cases h : s.length ≤ 4
  · have hs : maskTaxID s = s := by simp [maskTaxID, h]
    rw [hs]
    exact hs
  · have hmask : maskTaxID s
        = String.mk (List.replicate (s.length - 4) '*' ++ s.toList.drop (s.length - 4)) := by
      simp [maskTaxID, h]
    set t := maskTaxID s with ht
    have htoList : t.toList
        = List.replicate (s.length - 4) '*' ++ s.toList.drop (s.length - 4) := by
      rw [hmask]
      rfl
    have hlen : t.length = s.length := by
      have hq : t.length = t.toList.length := rfl
      have hts : s.toList.length = s.length := rfl
      rw [hq, htoList, List.length_append, List.length_replicate, List.length_drop]
      omega
    have h2 : ¬ t.length ≤ 4 := by rw [hlen]; exact h
    unfold maskTaxID
    rw [if_neg h2, hlen, htoList,
      @List.drop_left' _ (List.replicate (s.length - 4) '*') _ _ (by simp)]
    exact hmask.symm

theorem digitChar_ne_t (d : Nat) : digitChar d ≠ 't' := by
  unfold digitChar
  repeat' split
  all_goals decide

theorem natKeyAux_head (n : Nat) (acc : List Char) :
    ∃ d rest, natKeyAux n acc = digitChar d :: rest := by
  induction n using Nat.strong_induction_on generalizing acc with
  | _ n ih =>
    rw [natKeyAux]
    split
    · exact ⟨n, acc, rfl⟩
    · exact ih (n / 10) (Nat.div_lt_self (by omega) (by omega)) _

theorem natKey_ne_taxID (n : Nat) : natKey n ≠ "taxID" := by
  obtain ⟨d, rest, hk⟩ := natKeyAux_head n []
  intro hcontra
  have hdata : natKeyAux n [] = "taxID".data := congrArg String.data hcontra
  rw [hk] at hdata
  have hchars : "taxID".data = ['t', 'a', 'x', 'I', 'D'] := rfl
  rw [hchars] at hdata
  exact digitChar_ne_t d (List.head_eq_of_cons_eq hdata)

theorem lookup_spreadArrayFrom (i : Nat) : (l : JsonArr) →
    (spreadArrayFrom i l).lookup "taxID" = none
  | .nil => rfl
  | .cons hd tl => by
      show JsonObj.lookup (.cons (natKey i) hd (spreadArrayFrom (i + 1) tl)) "taxID" = none
      rw [JsonObj.lookup, if_neg (natKey_ne_taxID i)]
      exact lookup_spreadArrayFrom (i + 1) tl

theorem lookup_overrideTaxID_of_some : (f : JsonObj) → (m : String) → (v : Json) →
    f.lookup "taxID" = some v → (overrideTaxID f m).lookup "taxID" = some (.str m)
  | .nil, m, v, h => by simp [JsonObj.lookup] at h
  | .cons k w tl, m, v, h => by
      by_cases hk : k = "taxID"
      · subst hk
        simp [overrideTaxID, JsonObj.lookup]
      · rw [JsonObj.lookup, if_neg hk] at h
        rw [overrideTaxID, if_neg hk, JsonObj.lookup, if_neg hk]
        exact lookup_overrideTaxID_of_some tl m v h

theorem override_override : (f : JsonObj) → (m m2 : String) →
    overrideTaxID (overrideTaxID f m) m2 = overrideTaxID f m2
  | .nil, _, _ => rfl
  | .cons k w tl, m, m2 => by
      by_cases hk : k = "taxID"
      · rw [overrideTaxID, if_pos hk, overrideTaxID, if_pos hk,
          overrideTaxID, if_pos hk, override_override tl m m2]
      · rw [overrideTaxID, if_neg hk, overrideTaxID, if_neg hk,
          overrideTaxID, if_neg hk, override_override tl m m2]

theorem maskStructuredFields_idem (f : JsonObj) :
    maskFieldValue "taxID" (maskStructuredFields f) = maskStructuredFields f := by
  rcases hx : f.lookup "taxID" with _ | v
  · simp [maskFieldValue, maskStructuredFields, hx]
  · cases v with
    | str t =>
        simp [maskFieldValue, maskStructuredFields, hx,
          lookup_overrideTaxID_of_some f (maskTaxID t) (.str t) hx,
          override_override, maskTaxID_idem]
    | null => simp [maskFieldValue, maskStructuredFields, hx]
    | bool b => simp [maskFieldValue, maskStructuredFields, hx]
    | num n => simp [maskFieldValue, maskStructuredFields, hx]
    | arr items => simp [maskFieldValue, maskStructuredFields, hx]
    | obj g => simp [maskFieldValue, maskStructuredFields, hx]

mutual

theorem maskSensitiveData_idem : (j : Json) →
    maskSensitiveData (maskSensitiveData j) = maskSensitiveData j
  | .null => rfl
  | .bool _ => rfl
  | .num _ => rfl
  | .str _ => rfl
  | .arr items => by
      simp only [maskSensitiveData]
      rw [maskArr_idem items]
  | .obj fields => by
      simp only [maskSensitiveData]
      rw [maskObj_idem fields]

theorem maskArr_idem : (l : JsonArr) → maskArr (maskArr l) = maskArr l
  | .nil => rfl
  | .cons hd tl => by
      simp only [maskArr]
      rw [maskSensitiveData_idem hd, maskArr_idem tl]

theorem maskObj_idem : (f : JsonObj) → maskObj (maskObj f) = maskObj f
  | .nil => rfl
  | .cons k v tl => by
      simp only [maskObj]
      rw [maskFieldValue_idem k v, maskObj_idem tl]

theorem maskFieldValue_idem : (k : String) → (v : Json) →
    maskFieldValue k (maskFieldValue k v) = maskFieldValue k v
  | k, .null => rfl
  | k, .bool _ => rfl
  | k, .num _ => rfl
  | k, .str s => by
      by_cases hk : k = "taxID"
      · simp [maskFieldValue, hk, maskTaxID_idem]
      · by_cases hp : k = "phone"
        · simp [maskFieldValue, hk, hp, maskPhone_eq_maskTaxID, maskTaxID_idem]
        · simp [maskFieldValue, hk, hp]
  | k, .obj f => by
      by_cases hk : k = "taxID"
      · subst hk
        have h1 : maskFieldValue "taxID" (.obj f) = maskStructuredFields f := by
          simp [maskFieldValue]
        rw [h1]
        exact maskStructuredFields_idem f
      · simp [maskFieldValue, hk, maskObj_idem f]
  | k, .arr items => by
      by_cases hk : k = "taxID"
      · subst hk
        have h1 : maskFieldValue "taxID" (.arr items) = .obj (spreadArrayFrom 0 items) := by
          simp [maskFieldValue]
        have h2 : maskFieldValue "taxID" (.obj (spreadArrayFrom 0 items))
            = maskStructuredFields (spreadArrayFrom 0 items) := by
          simp [maskFieldValue]
        rw [h1, h2]
        simp [maskStructuredFields, lookup_spreadArrayFrom 0 items]
      · simp [maskFieldValue, hk, maskArr_idem items]

end

/-! ## Claim theorems for the masker -/

/-- C4: masking leaves a non-sensitive field such as name unchanged; a
string-valued taxID field longer than the 4-character visible suffix
becomes a string ending in its last 4 original characters preceded only
by asterisk characters (the example value 12345678900 becomes
a 7-asterisk run followed by 8900); and for an object-valued taxID field
only the inner taxID sub-field is masked while sibling fields such as the
type discriminator are preserved unchanged. -/
theorem mask_name_taxID_structured :
    (maskSensitiveData (.obj (jobj [("name", .str "John"), ("taxID", .str "12345678900")]))
      = .obj (jobj [("name", .str "John"), ("taxID", .str "*******8900")]))
    ∧ (∀ s : String, 4 < s.length →
        (maskTaxID s).toList
            = List.replicate (s.length - 4) '*' ++ s.toList.drop (s.length - 4)
          ∧ (s.toList.drop (s.length - 4)).length = 4)
    ∧ (∀ t ty : String,
        maskSensitiveData (.obj (jobj [("taxID",
            .obj (jobj [("taxID", .str t), ("type", .str ty)]))]))
          = .obj (jobj [("taxID",
            .obj (jobj [("taxID", .str (maskTaxID t)), ("type", .str ty)]))])) := by
  refine ⟨rfl, ?_, ?_⟩
  · intro s hs
    have h4 : ¬ s.length ≤ 4 := by omega
    have hts : s.toList.length = s.length := rfl
    constructor
    · simp [maskTaxID, h4]
    · rw [List.length_drop]
      omega
  · intro t ty
    simp [maskSensitiveData, maskObj, maskFieldValue, maskStructuredFields,
      JsonObj.lookup, overrideTaxID, jobj]

/-- Witness for C4 at the concrete input 12345678900 (length 11 > 4). -/
theorem mask_name_taxID_structured_witness :
    (maskTaxID "12345678900").toList
        = List.replicate ("12345678900".length - 4) '*'
            ++ "12345678900".toList.drop ("12345678900".length - 4)
      ∧ ("12345678900".toList.drop ("12345678900".length - 4)).length = 4 :=
  mask_name_taxID_structured.2.1 "12345678900" (by decide)

/-- C5: applying the masker twice equals applying it once on every JSON
payload, and the masker is the identity on every non-object, non-array
scalar (null, boolean, number, string). -/
theorem mask_idempotent_scalar_id :
    (∀ j : Json, maskSensitiveData (maskSensitiveData j) = maskSensitiveData j)
    ∧ maskSensitiveData .null = .null
    ∧ (∀ b : Bool, maskSensitiveData (.bool b) = .bool b)
    ∧ (∀ n : Int, maskSensitiveData (.num n) = .num n)
    ∧ (∀ s : String, maskSensitiveData (.str s) = .str s) :=
  ⟨maskSensitiveData_idem, rfl, fun _ => rfl, fun _ => rfl, fun _ => rfl⟩

/-! ## SimpleCache (packages/client/src/cache.ts) -/

/-- Cache entry: a stored value plus its absolute expiry instant. -/
structure CacheEntry (V : Type) where
  value : V
  expiresAt : Nat
deriving DecidableEq

/-- JS Map.prototype.set: overwrite the value at an existing key in place,
otherwise append the new binding. -/
def jsMapSet {K B : Type} [DecidableEq K] : List (K × B) → K → B → List (K × B)
  | [], k, b => [(k, b)]
  | (k1, b1) :: tl, k, b =>
      if k1 = k then (k, b) :: tl else (k1, b1) :: jsMapSet tl k b

/-- JS Map.prototype.get: value at the first matching key, if any. -/
def jsMapGet {K B : Type} [DecidableEq K] : List (K × B) → K → Option B
  | [], _ => none
  | (k1, b1) :: tl, k => if k1 = k then some b1 else jsMapGet tl k

/-- JS Map.prototype.delete: remove the binding at the first matching key. -/
def jsMapDelete {K B : Type} [DecidableEq K] : List (K × B) → K → List (K × B)
  | [], _ => []
  | (k1, b1) :: tl, k => if k1 = k then tl else (k1, b1) :: jsMapDelete tl k

/-- Model of SimpleCache: the underlying Map as an ordered association
list (JS Maps never hold a duplicate key); Date.now() is passed in
explicitly as the current virtual time. -/
structure SimpleCache (K V : Type) where
  store : List (K × CacheEntry V)

/-- Transcribes SimpleCache.set: store the value with expiry now + ttl,
overwriting unconditionally. -/
def SimpleCache.set {K V : Type} [DecidableEq K]
    (c : SimpleCache K V) (now : Nat) (key : K) (value : V) (ttl : Nat) : SimpleCache K V :=
  ⟨jsMapSet c.store key ⟨value, ttl + now⟩⟩

/-- Transcribes SimpleCache.get: absent key gives null; an entry whose
expiry is at or before now is deleted and null is returned; otherwise the
stored value is returned and the store is untouched.  The returned pair
is (result, cache state after the call). -/
def SimpleCache.get {K V : Type} [DecidableEq K]
    (c : SimpleCache K V) (now : Nat) (key : K) : Option V × SimpleCache K V :=
  match jsMapGet c.store key with
  | none => (none, c)
  | some entry =>
      if entry.expiresAt ≤ now then (none, ⟨jsMapDelete c.store key⟩)
      else (some entry.value, c)

/-- Transcribes SimpleCache.clear: empty the whole store. -/
def SimpleCache.clear {K V : Type} (_ : SimpleCache K V) : SimpleCache K V := ⟨[]⟩

theorem jsMapGet_delete_ne {K B : Type} [DecidableEq K] (k k2 : K) (h : k2 ≠ k) :
    (m : List (K × B)) → jsMapGet (jsMapDelete m k) k2 = jsMapGet m k2
  | [] => rfl
  | (k1, b1) :: tl => by
      by_cases h1 : k1 = k
      · rw [jsMapDelete, if_pos h1, jsMapGet, if_neg (by rw [h1]; exact fun he => h he.symm)]
      · rw [jsMapDelete, if_neg h1, jsMapGet, jsMapGet]
        by_cases h2 : k1 = k2
        · rw [if_pos h2, if_pos h2]
        · rw [if_neg h2, if_neg h2]
          exact jsMapGet_delete_ne k k2 h tl

theorem jsMapGet_eq_none_of_not_mem {K B : Type} [DecidableEq K] (k : K) :
    (m : List (K × B)) → k ∉ m.map Prod.fst → jsMapGet m k = none
  | [], _ => rfl
  | (k1, b1) :: tl, h => by
      have h1 : k1 ≠ k := by
        intro he
        exact h (by simp [he])
      rw [jsMapGet, if_neg h1]
      exact jsMapGet_eq_none_of_not_mem k tl (fun hm => h (by simp [hm]))

theorem jsMapGet_delete_self {K B : Type} [DecidableEq K] (k : K) :
    (m : List (K × B)) → (m.map Prod.fst).Nodup → jsMapGet (jsMapDelete m k) k = none
  | [], _ => rfl
  | (k1, b1) :: tl, hnd => by
      have hnd2 : (tl.map Prod.fst).Nodup := (List.nodup_cons.mp hnd).2
      by_cases h1 : k1 = k
      · rw [jsMapDelete, if_pos h1]
        have hk : k ∉ tl.map Prod.fst := h1 ▸ (List.nodup_cons.mp hnd).1
        exact jsMapGet_eq_none_of_not_mem k tl hk
      · rw [jsMapDelete, if_neg h1, jsMapGet, if_neg h1]
        exact jsMapGet_delete_self k tl hnd2

theorem not_mem_delete_self {K B : Type} [DecidableEq K] (k : K) (b : B) :
    (m : List (K × B)) → (m.map Prod.fst).Nodup → (k, b) ∉ jsMapDelete m k
  | [], _ => by simp [jsMapDelete]
  | (k1, b1) :: tl, hnd => by
      have hnd2 : (tl.map Prod.fst).Nodup := (List.nodup_cons.mp hnd).2
      by_cases h1 : k1 = k
      · rw [jsMapDelete, if_pos h1]
        intro hm
        have hk : k ∈ tl.map Prod.fst := by
          exact List.mem_map.mpr ⟨(k, b), hm, rfl⟩
        exact (h1 ▸ (List.nodup_cons.mp hnd).1) hk
      · rw [jsMapDelete, if_neg h1]
        intro hm
        rcases List.mem_cons.mp hm with he | hm2
        · exact h1 (congrArg Prod.fst he).symm
        · exact not_mem_delete_self k b tl hnd2 hm2

/-- C7: get(k) returns the stored value exactly when now is strictly
before the stored expiry, without modifying the store; when now is at or
past the expiry, get(k) returns absent, the entry at k is removed from
the underlying store (gone from any internal iteration), and every other
entry is unchanged; get on an absent key changes nothing. -/
theorem cache_get_contract {K V : Type} [DecidableEq K]
    (c : SimpleCache K V) (now : Nat) (k : K)
    (hnd : (c.store.map Prod.fst).Nodup) :
    (∀ v exp, jsMapGet c.store k = some ⟨v, exp⟩ →
        (now < exp → SimpleCache.get c now k = (some v, c))
      ∧ (exp ≤ now →
            (SimpleCache.get c now k).1 = none
          ∧ jsMapGet (SimpleCache.get c now k).2.store k = none
          ∧ (∀ e : CacheEntry V, (k, e) ∉ (SimpleCache.get c now k).2.store)
          ∧ (∀ k2, k2 ≠ k →
              jsMapGet (SimpleCache.get c now k).2.store k2 = jsMapGet c.store k2)))
    ∧ (jsMapGet c.store k = none → SimpleCache.get c now k = (none, c)) := by
  constructor
  · intro v exp hget
    constructor
    · intro hlt
      simp [SimpleCache.get, hget]
      omega
    · intro hle
      have hg : SimpleCache.get c now k = (none, ⟨jsMapDelete c.store k⟩) := by
        simp [SimpleCache.get, hget]
        omega
      rw [hg]
      exact ⟨rfl, jsMapGet_delete_self k c.store hnd,
        fun e => not_mem_delete_self k e c.store hnd,
        fun k2 h2 => jsMapGet_delete_ne k k2 h2 c.store⟩
  · intro hget
    simp [SimpleCache.get, hget]

/-- Witness for C7, following the spec example: set(k, v, 1000) at time 0,
then at time 1001 get(k) is absent and the entry is gone from the store;
at time 999 the value is still returned with the store untouched. -/
theorem cache_get_contract_witness :
    (((SimpleCache.mk [] : SimpleCache String Nat).set 0 "k" 42 1000).get 1001 "k").1 = none
    ∧ (∀ e : CacheEntry Nat,
        ("k", e) ∉ (((SimpleCache.mk [] : SimpleCache String Nat).set 0 "k" 42 1000).get 1001 "k").2.store)
    ∧ (((SimpleCache.mk [] : SimpleCache String Nat).set 0 "k" 42 1000).get 999 "k")
        = (some 42, (SimpleCache.mk [] : SimpleCache String Nat).set 0 "k" 42 1000) := by
  have h := cache_get_contract ((SimpleCache.mk [] : SimpleCache String Nat).set 0 "k" 42 1000)
    1001 "k" (by decide)
  have h9 := cache_get_contract ((SimpleCache.mk [] : SimpleCache String Nat).set 0 "k" 42 1000)
    999 "k" (by decide)
  have hget : jsMapGet ((SimpleCache.mk [] : SimpleCache String Nat).set 0 "k" 42 1000).store "k"
      = some ⟨42, 1000⟩ := rfl
  refine ⟨((h.1 42 1000 hget).2 (by decide)).1,
    ((h.1 42 1000 hget).2 (by decide)).2.2.1,
    (h9.1 42 1000 hget).1 (by decide)⟩

/-! ## Logger (packages/client/src/logger.ts) and tool response masking
(packages/server/src/tools/charges.ts) -/

/-- Log levels of the Logger. -/
inductive LogLevel where
  | debug
  | info
  | warn
  | error
deriving DecidableEq

/-- Transcribes LEVEL_ORDER. -/
def levelOrder : LogLevel → Nat
  | .debug => 0
  | .info => 1
  | .warn => 2
  | .error => 3

/-- Name of a log level as it appears in the entry. -/
def levelName : LogLevel → String
  | .debug => "debug"
  | .info => "info"
  | .warn => "warn"
  | .error => "error"

/-- Transcribes Logger.shouldLog. -/
def shouldLog (minLevel level : LogLevel) : Bool :=
  levelOrder minLevel ≤ levelOrder level

/-- JS object-literal update: overwrite the value at an existing key in
place, otherwise append the field. -/
def jsObjSet : JsonObj → String → Json → JsonObj
  | .nil, k, v => .cons k v .nil
  | .cons k1 v1 tl, k, v =>
      if k1 = k then .cons k v tl else .cons k1 v1 (jsObjSet tl k v)

/-- Spread of the fields of extra onto base, left to right (JS object
literal spread: later fields override earlier values in place). -/
def jsObjSpread : JsonObj → JsonObj → JsonObj
  | base, .nil => base
  | base, .cons k v tl => jsObjSpread (jsObjSet base k v) tl

/-- Transcribes Logger.emit: when the level passes the threshold, the
entry written to stderr is the object with timestamp, level, component
and message fields followed by the data fields spread verbatim —
maskSensitiveData is not applied anywhere on this path.  The result is
the entry written (as the object that gets JSON.stringify-ed to stderr),
or none when the level is filtered out or no data version when data is
absent.  The timestamp is passed in explicitly. -/
def loggerEmit (component : String) (minLevel : LogLevel) (ts : String)
    (level : LogLevel) (message : String) (data : Option JsonObj) : Option JsonObj :=
  if shouldLog minLevel level then
    let base : JsonObj := jobj [("timestamp", .str ts), ("level", .str (levelName level)),
      ("component", .str component), ("message", .str message)]
    some (match data with
      | none => base
      | some d => jsObjSpread base d)
  else none

/-- Transcribes the success path of the charge tools in
registerChargeTools: the response text is the serialization of
maskSensitiveData applied to the client result (JSON.stringify itself is
not modelled; this is the payload that gets serialized). -/
def chargeToolResponsePayload (result : Json) : Json := maskSensitiveData result

/-- C6 counterexample: Logger.emit with a data object holding a raw taxID
writes a log entry whose taxID field is the raw unmasked string, which
differs from its masked form — the emitted entry does not contain the
masked form of the data, refuting the claim for the logging call sites. -/
theorem logger_emit_writes_raw_taxID :
    (loggerEmit "WooviClient" .info "2026-01-01T00:00:00.000Z" .info "Customer data"
        (some (jobj [("taxID", .str "12345678900")]))).map (fun e => e.lookup "taxID")
      = some (some (.str "12345678900"))
    ∧ "12345678900" ≠ maskTaxID "12345678900" := by
  constructor
  · rfl
  · decide

/-- C6 amended: successful charge tool responses serialize
maskSensitiveData of the client result (so a taxID in the result reaches
the caller masked), but Logger.emit does not invoke the masker: the data
object is spread into the stderr entry verbatim, raw values included. -/
theorem tool_response_masked_logger_raw :
    (∀ result : Json, chargeToolResponsePayload result = maskSensitiveData result)
    ∧ chargeToolResponsePayload (.obj (jobj [("name", .str "John"), ("taxID", .str "12345678900")]))
        = .obj (jobj [("name", .str "John"), ("taxID", .str "*******8900")])
    ∧ (loggerEmit "WooviClient" .info "2026-01-01T00:00:00.000Z" .info "Customer data"
        (some (jobj [("name", .str "John"), ("taxID", .str "12345678900")]))).map
          (fun e => (e.lookup "taxID", e.lookup "name"))
        = some (some (.str "12345678900"), some (.str "John")) :=
  ⟨fun _ => rfl, rfl, rfl⟩

/-! ## String helpers for the client (JS semantics) -/

/-- Whitespace characters recognized by String.prototype.trim and
skipped by parseInt (ASCII whitespace plus NBSP, BOM and the line and
paragraph separators). -/
def isJsWhitespace (c : Char) : Bool :=
  c == ' ' || c == '\t' || c == '\n' || c == '\r' || c.val == 11 || c.val == 12
    || c.val == 0xA0 || c.val == 0xFEFF || c.val == 0x2028 || c.val == 0x2029

/-- JavaScript String.prototype.trim. -/
def jsTrim (s : String) : String :=
  String.mk (((s.toList.dropWhile isJsWhitespace).reverse.dropWhile isJsWhitespace).reverse)

/-- Containment of pat as a contiguous segment (String.prototype.includes). -/
def listHasSeg (pat : List Char) : List Char → Bool
  | [] => pat.isEmpty
  | c :: tl => pat.isPrefixOf (c :: tl) || listHasSeg pat tl

/-- JavaScript s.includes(pat). -/
def jsIncludes (s pat : String) : Bool := listHasSeg pat.toList s.toList

/-- JavaScript parseInt(s, 10): skip leading whitespace, read an optional
sign and then the maximal run of leading decimal digits; none models NaN
(no digit found). -/
def parseIntJS (s : String) : Option Int :=
  let l := s.toList.dropWhile isJsWhitespace
  let signed : Int × List Char :=
    match l with
    | '-' :: tl => (-1, tl)
    | '+' :: tl => (1, tl)
    | _ => (1, l)
  let digits := signed.2.takeWhile Char.isDigit
  if digits.isEmpty then none
  else some (signed.1 * (digits.foldl (fun acc c => 10 * acc + (c.toNat - 48)) 0 : Nat))

/-! ## WooviClient constructor (packages/client/src/client.ts) -/

/-- Second constructor argument: absent, a plain base-URL string, or a
config object with optional baseUrl and timeoutMs. -/
inductive ClientConfigArg where
  | missing
  | url (s : String)
  | config (baseUrl : Option String) (timeoutMs : Option Nat)

/-- Fields of a constructed WooviClient relevant to the claims. -/
structure ClientState where
  appId : String
  baseUrl : String
  timeoutMs : Nat
deriving DecidableEq

/-- Transcribes the WooviClient constructor: an appId that is empty or
whitespace-only (falsy or blank after trim) throws; a plain string second
argument becomes the base URL with the 30000 ms default timeout; a config
object supplies baseUrl (defaulted when absent or empty, which is falsy)
and timeoutMs (defaulted only when nullish); no argument gives both
defaults. -/
def wooviClientNew (appId : String) (cfg : ClientConfigArg) : Except String ClientState :=
  if appId = "" ∨ jsTrim appId = "" then .error "appId is required and cannot be empty"
  else .ok (match cfg with
    | .url s => ⟨appId, s, 30000⟩
    | .missing => ⟨appId, "https://api.woovi.com", 30000⟩
    | .config b t =>
        ⟨appId,
         (match b with
          | some u => if u = "" then "https://api.woovi.com" else u
          | none => "https://api.woovi.com"),
         t.getD 30000⟩)

theorem jsTrim_eq_empty_iff (s : String) :
    jsTrim s = "" ↔ ∀ c ∈ s.toList, isJsWhitespace c := by
  unfold jsTrim
  constructor
  · intro h c hc
    have hdata : ((s.toList.dropWhile isJsWhitespace).reverse.dropWhile isJsWhitespace).reverse
        = [] := congrArg String.data h
    rw [List.reverse_eq_nil_iff, List.dropWhile_eq_nil_iff] at hdata
    by_cases hin : c ∈ s.toList.dropWhile isJsWhitespace
    · exact hdata c (List.mem_reverse.mpr hin)
    · rcases (List.mem_append.mp
        ((List.takeWhile_append_dropWhile (p := isJsWhitespace) (l := s.toList)) ▸ hc))
        with htk | hdp
      · exact List.mem_takeWhile_imp htk
      · exact absurd hdp hin
  · intro h
    have hall : ∀ c ∈ (s.toList.dropWhile isJsWhitespace).reverse.dropWhile isJsWhitespace,
        isJsWhitespace c := by
      intro c hc
      exact h c ((List.dropWhile_sublist _).subset
        (List.mem_reverse.mp ((List.dropWhile_sublist _).subset hc)))
    have hnil : (s.toList.dropWhile isJsWhitespace).reverse.dropWhile isJsWhitespace = [] := by
      rcases hq : (s.toList.dropWhile isJsWhitespace).reverse.dropWhile isJsWhitespace
        with _ | ⟨c, tl⟩
      · rfl
      · exfalso
        have hc : isJsWhitespace c := by
          refine hall c ?_
          rw [hq]
          exact List.mem_cons_self c tl
        have := List.head?_dropWhile_not (p := isJsWhitespace)
          ((s.toList.dropWhile isJsWhitespace).reverse)
        rw [hq] at this
        simp at this
        rw [this] at hc
        exact Bool.noConfusion hc
    rw [hnil]
    rfl

/-- C9: the constructor throws the message appId is required and cannot
be empty exactly when appId is empty or whitespace-only; every other
appId constructs successfully, and with no second argument the base URL
defaults to https://api.woovi.com and the timeout to 30000 ms. -/
theorem wooviClient_constructor_contract (appId : String) (cfg : ClientConfigArg) :
    (wooviClientNew appId cfg = .error "appId is required and cannot be empty"
        ↔ ∀ c ∈ appId.toList, isJsWhitespace c)
    ∧ (¬ (∀ c ∈ appId.toList, isJsWhitespace c) →
          (∃ st : ClientState, wooviClientNew appId cfg = .ok st)
        ∧ wooviClientNew appId .missing = .ok ⟨appId, "https://api.woovi.com", 30000⟩) := by
  have hcond : (appId = "" ∨ jsTrim appId = "") ↔ ∀ c ∈ appId.toList, isJsWhitespace c := by
    constructor
    · rintro (h | h)
      · intro c hc
        rw [h] at hc
        simp at hc
      · exact (jsTrim_eq_empty_iff appId).mp h
    · intro h
      exact Or.inr ((jsTrim_eq_empty_iff appId).mpr h)
  constructor
  · constructor
    · intro h
      by_cases hc : appId = "" ∨ jsTrim appId = ""
      · exact hcond.mp hc
      · unfold wooviClientNew at h
        rw [if_neg hc] at h
        exact absurd h (by simp)
    · intro h
      unfold wooviClientNew
      rw [if_pos (hcond.mpr h)]
  · intro h
    have hc : ¬ (appId = "" ∨ jsTrim appId = "") := fun hx => h (hcond.mp hx)
    constructor
    · exact ⟨_, by unfold wooviClientNew; rw [if_neg hc]⟩
    · unfold wooviClientNew
      rw [if_neg hc]

/-- Witness for C9: a normal appId constructs with the defaults, and a
whitespace-only appId throws. -/
theorem wooviClient_constructor_witness :
    wooviClientNew "my-app-id" .missing = .ok ⟨"my-app-id", "https://api.woovi.com", 30000⟩
    ∧ wooviClientNew "   " .missing = .error "appId is required and cannot be empty" :=
  ⟨((wooviClient_constructor_contract "my-app-id" .missing).2 (by decide)).2,
   (wooviClient_constructor_contract "   " .missing).1.mpr (by decide)⟩

/-! ## makeRequest error-body classification (packages/client/src/client.ts) -/

/-- List view of a JsonArr. -/
def JsonArr.toList : JsonArr → List Json
  | .nil => []
  | .cons hd tl => hd :: tl.toList

/-- Per-element message extraction in the error-array branches, modelling
e.message || String(e): a null element makes the property access throw
(none); a missing or falsy message falls back to String(e). -/
def elementMessage : Json → Option Json
  | .null => none
  | .obj f =>
      some (match f.lookup "message" with
        | some mv => if jsTruthy mv then mv else .str (jsToString (.obj f))
        | none => .str (jsToString (.obj f)))
  | j => some (.str (jsToString j))

/-- Message join for a non-empty error array, modelling
map(e => e.message || String(e)).filter(Boolean) followed by a join with
a semicolon separator; none covers both a thrown property access (null
element) and an all-falsy filtered list, which leave the fallback
message in place. -/
def joinMessages (items : List Json) : Option String :=
  match items.mapM elementMessage with
  | none => none
  | some vals =>
      let msgs := vals.filter jsTruthy
      if msgs.isEmpty then none
      else some (String.intercalate "; " (msgs.map jsToString))

/-- Third shape: a non-empty errors array with the same join rule. -/
def errorsShape (f : JsonObj) : Option String :=
  match f.lookup "errors" with
  | some (.arr items) => if items.toList.isEmpty then none else joinMessages items.toList
  | _ => none

/-- Transcribes the error-message extraction of makeRequest: three body
shapes tried in order with first match winning — a string error field, a
non-empty error array, then a non-empty errors array; none means the
fallback message stays (no shape matched, the body was null so the
property access threw, or a message list joined to nothing). -/
def extractErrorMessage : Json → Option String
  | .null => none
  | .obj f =>
      (match f.lookup "error" with
        | some (.str s) => some s
        | some (.arr items) =>
            if items.toList.isEmpty then errorsShape f else joinMessages items.toList
        | _ => errorsShape f)
  | _ => none

/-- Fallback error message for a non-success status. -/
def fallbackMessage (status : Nat) : String :=
  "Request failed with status " ++ toString status

/-- Message and carried body of the WooviApiError thrown for a terminal
non-2xx response: body is the decoded JSON error body (none models a
decode failure, in which case undefined is carried). -/
def classifyErrorBody (status : Nat) (body : Option Json) : String × Option Json :=
  match body with
  | none => (fallbackMessage status, none)
  | some b =>
      match extractErrorMessage b with
      | some m => (m, some b)
      | none => (fallbackMessage status, some b)

/-! ## makeRequest retry loop (packages/client/src/client.ts) -/

/-- One stubbed network interaction: a settled HTTP response carrying the
status, the Retry-After header and the decoded JSON body (none models a
body whose JSON decoding fails), an abort fired by the timeout, or a
transport-level rejection of fetch. -/
inductive FetchOutcome where
  | resp (status : Nat) (retryAfterHeader : Option String) (body : Option Json)
  | aborted
  | netError (msg : String)

/-- Classified failure of a makeRequest invocation. -/
inductive ReqError where
  | authError (status : Nat)
  | timeout (timeoutMs : Nat)
  | apiError (message : String) (status : Nat) (body : Option Json)
  | network (msg : String)
  | jsonDecodeFailure
  | maxRetriesExceeded

/-- Message string of each thrown error as inspected by the includes-429
check of the catch block.  The JSON decode failure on a success body is
modelled with the standard parser message (it contains no 429). -/
def ReqError.message : ReqError → String
  | .authError status => "Auth error: " ++ toString status
  | .timeout ms => "Request timed out after " ++ toString ms ++ "ms"
  | .apiError m _ _ => m
  | .network m => m
  | .jsonDecodeFailure => "Unexpected end of JSON input"
  | .maxRetriesExceeded => "Request failed: max retries exceeded"

/-- Fixed escalating backoff schedule baseDelays. -/
def baseDelays : List Int := [1000, 2000, 5000]

/-- Backoff delay chosen on the 429 retry path: a truthy (present,
non-empty) Retry-After header is parsed with parseInt and converted from
seconds to milliseconds (none models a NaN delay from an unparsable
header), otherwise the schedule is indexed by the 0-based attempt number
with fallback 5000. -/
def retryDelay (retryAfterHeader : Option String) (attempt : Nat) : Option Int :=
  match retryAfterHeader with
  | some h =>
      if h = "" then some (baseDelays.getD attempt 5000)
      else (parseIntJS h).map (fun x => x * 1000)
  | none => some (baseDelays.getD attempt 5000)

/-- Observable trace of one makeRequest invocation: how many fetch calls
were issued, the backoff sleeps awaited in order (none models a NaN
delay), and how many retries went through the catch block rather than
the inline 429 branch. -/
structure RunTrace where
  fetches : Nat
  sleeps : List (Option Int)
  catchRetries : Nat

/-- Outcome of one makeRequest invocation together with its trace;
stubEnded marks exhaustion of the stubbed interaction list (the loop
would issue another fetch). -/
inductive RunResult where
  | success (body : Json) (trace : RunTrace)
  | failure (e : ReqError) (trace : RunTrace)
  | stubEnded (trace : RunTrace)

/-- Transcribes the while loop of makeRequest.  Each iteration issues one
fetch (consuming one stubbed outcome): a 2xx response returns its decoded
body (a body decode failure throws); 401 and 403 throw the auth error; a
429 with attempts remaining sleeps for retryDelay, increments the
attempt counter and continues; any other case throws a WooviApiError
built by classifyErrorBody.  Every throw except the timeout passes the
catch block, which rethrows when the budget is exhausted or the message
lacks 429, and otherwise increments the attempt counter and continues
(without sleeping). -/
def runLoop (timeoutMs maxRetries : Nat) (responses : List FetchOutcome)
    (attempt : Nat) (tr : RunTrace) : RunResult :=
  if maxRetries < attempt then .failure .maxRetriesExceeded tr
  else
    match responses with
    | [] => .stubEnded tr
    | o :: rest =>
      let tr1 : RunTrace := ⟨tr.fetches + 1, tr.sleeps, tr.catchRetries⟩
      match o with
      | .aborted => .failure (.timeout timeoutMs) tr1
      | .netError m =>
          if maxRetries ≤ attempt then .failure (.network m) tr1
          else if jsIncludes (ReqError.network m).message "429" then
            runLoop timeoutMs maxRetries rest (attempt + 1)
              ⟨tr1.fetches, tr1.sleeps, tr1.catchRetries + 1⟩
          else .failure (.network m) tr1
      | .resp status hdr body =>
          if 200 ≤ status ∧ status ≤ 299 then
            match body with
            | some j => .success j tr1
            | none =>
                if maxRetries ≤ attempt then .failure .jsonDecodeFailure tr1
                else if jsIncludes ReqError.jsonDecodeFailure.message "429" then
                  runLoop timeoutMs maxRetries rest (attempt + 1)
                    ⟨tr1.fetches, tr1.sleeps, tr1.catchRetries + 1⟩
                else .failure .jsonDecodeFailure tr1
          else if status = 401 ∨ status = 403 then
            if maxRetries ≤ attempt then .failure (.authError status) tr1
            else if jsIncludes (ReqError.authError status).message "429" then
              runLoop timeoutMs maxRetries rest (attempt + 1)
                ⟨tr1.fetches, tr1.sleeps, tr1.catchRetries + 1⟩
            else .failure (.authError status) tr1
          else if status = 429 ∧ attempt < maxRetries then
            runLoop timeoutMs maxRetries rest (attempt + 1)
              ⟨tr1.fetches, tr1.sleeps ++ [retryDelay hdr attempt], tr1.catchRetries⟩
          else
            let e : ReqError := .apiError (classifyErrorBody status body).1 status
              (classifyErrorBody status body).2
            if maxRetries ≤ attempt then .failure e tr1
            else if jsIncludes e.message "429" then
              runLoop timeoutMs maxRetries rest (attempt + 1)
                ⟨tr1.fetches, tr1.sleeps, tr1.catchRetries + 1⟩
            else .failure e tr1

/-- Transcribes makeRequest: the loop starts at attempt 0 with the
hard-coded budget maxRetries = 3 and an empty trace. -/
def makeRequest (timeoutMs : Nat) (responses : List FetchOutcome) : RunResult :=
  runLoop timeoutMs 3 responses 0 ⟨0, [], 0⟩

/-! ## Claim theorems for the request executor -/

/-- C1: with the attempt budget of 3, three consecutive 429 responses
followed by a 200 with a decodable JSON body issue exactly 4 network
calls and return the decoded fourth body as a success; all three retries
go through the 429 path (three backoff sleeps recorded, zero retries
through the catch path), so the attempt counter is incremented only on
the 429 retry path. -/
theorem retry_three_429_then_success (tm : Nat) (h1 h2 h3 h4 : Option String)
    (b1 b2 b3 : Option Json) (b : Json) :
    makeRequest tm [.resp 429 h1 b1, .resp 429 h2 b2, .resp 429 h3 b3, .resp 200 h4 (some b)]
      = .success b ⟨4, [retryDelay h1 0, retryDelay h2 1, retryDelay h3 2], 0⟩ := rfl

/-- C2: a first response of 401 or 403 fails with the auth error after
exactly 1 network call, with no backoff sleep and no retry, for every
configured attempt budget and whatever stubbed interactions follow. -/
theorem auth_error_single_call (tm maxRetries : Nat) (hdr : Option String)
    (body : Option Json) (rest : List FetchOutcome) :
    runLoop tm maxRetries (.resp 401 hdr body :: rest) 0 ⟨0, [], 0⟩
        = .failure (.authError 401) ⟨1, [], 0⟩
    ∧ runLoop tm maxRetries (.resp 403 hdr body :: rest) 0 ⟨0, [], 0⟩
        = .failure (.authError 403) ⟨1, [], 0⟩ := by
  constructor
  · simp [runLoop, show jsIncludes (ReqError.authError 401).message "429" = false from rfl]
  · simp [runLoop, show jsIncludes (ReqError.authError 403).message "429" = false from rfl]

/-- C8: on a retried 429 the recorded backoff sleep is retryDelay: the
Retry-After header parsed as seconds and converted to milliseconds when
the header is present and non-empty, and otherwise the fixed escalating
schedule 1000, 2000, 5000 ms indexed by the 0-based attempt number. -/
theorem rate_limit_backoff_delay (tm maxRetries : Nat) (hdr : Option String)
    (body : Option Json) (rest : List FetchOutcome) (attempt : Nat) (tr : RunTrace)
    (hlt : attempt < maxRetries) :
    (runLoop tm maxRetries (.resp 429 hdr body :: rest) attempt tr
        = runLoop tm maxRetries rest (attempt + 1)
            ⟨tr.fetches + 1, tr.sleeps ++ [retryDelay hdr attempt], tr.catchRetries⟩)
    ∧ (∀ h : String, h ≠ "" →
        retryDelay (some h) attempt = (parseIntJS h).map (fun x => x * 1000))
    ∧ retryDelay none attempt = some (baseDelays.getD attempt 5000)
    ∧ retryDelay none 0 = some 1000
    ∧ retryDelay none 1 = some 2000
    ∧ retryDelay none 2 = some 5000
    ∧ retryDelay (some "7") 1 = some 7000 := by
  refine ⟨?_, ?_, rfl, rfl, rfl, rfl, rfl⟩
  · simp [runLoop, hlt, Nat.not_lt.mpr (Nat.le_of_lt hlt)]
  · intro h hne
    simp [retryDelay, hne]

/-- Witness for C8: a 429 at attempt 0 under budget 3 records the sleep
retryDelay, and a Retry-After header of 7 gives 7000 ms. -/
theorem rate_limit_backoff_delay_witness :
    runLoop 30000 3 [.resp 429 (some "7") none] 0 ⟨0, [], 0⟩
      = runLoop 30000 3 [] 1 ⟨1, [retryDelay (some "7") 0], 0⟩
    ∧ retryDelay (some "7") 0 = (parseIntJS "7").map (fun x => x * 1000) := by
  have h := rate_limit_backoff_delay 30000 3 (some "7") none [] 0 ⟨0, [], 0⟩ (by decide)
  exact ⟨h.1, h.2.1 "7" (by decide)⟩

/-- Error body of the C3 example: error holding two message objects. -/
def errorArrayBody : Json :=
  .obj (jobj [("error", .arr (jarr [.obj (jobj [("message", .str "Invalid CPF")]),
    .obj (jobj [("message", .str "Field required")])]))])

/-- Error body with a non-empty errors array (third shape). -/
def errorsArrayBody : Json :=
  .obj (jobj [("errors", .arr (jarr [.obj (jobj [("message", .str "Amount too low")]),
    .obj (jobj [("message", .str "Currency missing")])]))])

/-- Error body matching both the first and the third shape. -/
def bothShapesBody : Json :=
  .obj (jobj [("error", .str "boom"),
    ("errors", .arr (jarr [.obj (jobj [("message", .str "ignored")])]))])

/-- C3: terminal non-2xx classification: a string error field wins and
becomes the message (first match, even when an errors array is also
present); the error and errors array shapes join the message fields with
a semicolon separator — the claimed example yields Invalid CPF; Field
required; a failed decode falls back to the status message and carries
no body; an unmatched shape falls back but carries the decoded body; and
with no retry remaining the loop fails with a WooviApiError carrying
exactly the classified message, the status code and the carried body. -/
theorem api_error_message_shapes :
    (∀ (st : Nat) (f : JsonObj) (s : String), f.lookup "error" = some (.str s) →
        classifyErrorBody st (some (.obj f)) = (s, some (.obj f)))
    ∧ classifyErrorBody 400 (some errorArrayBody)
        = ("Invalid CPF; Field required", some errorArrayBody)
    ∧ classifyErrorBody 422 (some errorsArrayBody)
        = ("Amount too low; Currency missing", some errorsArrayBody)
    ∧ classifyErrorBody 400 (some bothShapesBody) = ("boom", some bothShapesBody)
    ∧ (∀ st : Nat, classifyErrorBody st none = (fallbackMessage st, none))
    ∧ (∀ st : Nat, classifyErrorBody st (some (.obj .nil))
        = (fallbackMessage st, some (.obj .nil)))
    ∧ fallbackMessage 500 = "Request failed with status 500"
    ∧ (∀ (tm mr status : Nat) (hdr : Option String) (body : Option Json)
        (rest : List FetchOutcome) (tr : RunTrace),
        ¬ (200 ≤ status ∧ status ≤ 299) → status ≠ 401 → status ≠ 403 →
        runLoop tm mr (.resp status hdr body :: rest) mr tr
          = .failure (.apiError (classifyErrorBody status body).1 status
              (classifyErrorBody status body).2) ⟨tr.fetches + 1, tr.sleeps, tr.catchRetries⟩) := by
  refine ⟨?_, rfl, rfl, rfl, fun st => rfl, fun st => rfl, rfl, ?_⟩
  · intro st f s hlk
    simp [classifyErrorBody, extractErrorMessage, hlk]
  · intro tm mr status hdr body rest tr h2xx h401 h403
    simp [runLoop, h2xx, h401, h403]

/-- Witness for C3: the string shape applied to a concrete body, and the
terminal classification of a 500 with the example error body at an
exhausted budget. -/
theorem api_error_message_shapes_witness :
    classifyErrorBody 418 (some (.obj (.cons "error" (.str "teapot") .nil)))
        = ("teapot", some (.obj (.cons "error" (.str "teapot") .nil)))
    ∧ runLoop 30000 3 [.resp 500 none (some errorArrayBody)] 3 ⟨3, [], 0⟩
        = .failure (.apiError "Invalid CPF; Field required" 500 (some errorArrayBody))
            ⟨4, [], 0⟩ := by
  constructor
  · exact api_error_message_shapes.1 418 (.cons "error" (.str "teapot") .nil) "teapot" rfl
  · have h := api_error_message_shapes.2.2.2.2.2.2.2 30000 3 500 none (some errorArrayBody)
      [] ⟨3, [], 0⟩ (by decide) (by decide) (by decide)
    rw [h]
    rfl

/-! ## getBalance (packages/client/src/client.ts) -/

/-- Property access v[k] as JS evaluates it inside getBalance: a null
receiver throws a TypeError (error), an object yields its field (none
when absent, i.e. undefined), and any other receiver yields undefined. -/
def jsAccess : Json → String → Except Unit (Option Json)
  | .null, _ => .error ()
  | .obj f, k => .ok (f.lookup k)
  | _, _ => .ok none

/-- Transcribes accounts.find(a => a.accountId === accountId): first
element whose accountId property is strictly equal to the requested id
string; a null element makes the property access throw. -/
def findAccountById (aid : String) : List Json → Except Unit (Option Json)
  | [] => .ok none
  | a :: rest =>
      match jsAccess a "accountId" with
      | .error _ => .error ()
      | .ok v =>
          match v with
          | some (.str s) => if s = aid then .ok (some a) else findAccountById aid rest
          | _ => findAccountById aid rest

/-- Transcribes accounts.find(a => a.isDefault): first element with a
truthy isDefault property; a null element makes the access throw. -/
def findDefaultAccount : List Json → Except Unit (Option Json)
  | [] => .ok none
  | a :: rest =>
      match jsAccess a "isDefault" with
      | .error _ => .error ()
      | .ok v =>
          match v with
          | some w => if jsTruthy w then .ok (some a) else findDefaultAccount rest
          | none => findDefaultAccount rest

/-- Balance cache key: balance:<accountId-or-default>, where a missing or
empty (falsy) accountId means default. -/
def balanceCacheKey (accountId : Option String) : String :=
  "balance:" ++ (match accountId with
    | some a => if a = "" then "default" else a
    | none => "default")

/-- Message of the error thrown when no account or balance is found. -/
def noAccountMessage : String := "No account found or balance data unavailable"

/-- Account extraction of getBalance from the decoded upstream response:
response.accounts?.find(...) with the by-id predicate when an accountId
was given (truthy), otherwise the isDefault predicate with fallback to
accounts[0]; optional chaining short-circuits on a null or absent
accounts value, while calling find on a non-array accounts throws. -/
def extractAccount (aid : Option String) (resp : Json) : Except Unit (Option Json) :=
  match jsAccess resp "accounts" with
  | .error _ => .error ()
  | .ok accountsOpt =>
      match accountsOpt with
      | some (.arr items) =>
          (match aid with
            | some a => findAccountById a items.toList
            | none =>
                match findDefaultAccount items.toList with
                | .error _ => .error ()
                | .ok (some x) => .ok (some x)
                | .ok none => .ok items.toList.head?)
      | some .null => .ok none
      | none => .ok none
      | some _ => .error ()

/-- Continuation of getBalance after a cache miss (or falsy hit): account
extraction, the not-found throw on a falsy account or balance, and the
success-path cache store. -/
def getBalanceAfterMiss (c1 : SimpleCache String Json) (now : Nat) (key : String)
    (aid : Option String) (resp : Json) :
    Except (Option String) Json × SimpleCache String Json :=
  match extractAccount aid resp with
  | .error _ => (.error none, c1)
  | .ok acctOpt =>
      match acctOpt with
      | none => (.error (some noAccountMessage), c1)
      | some acct =>
          if jsTruthy acct then
            match jsAccess acct "balance" with
            | .error _ => (.error none, c1)
            | .ok balOpt =>
                match balOpt with
                | none => (.error (some noAccountMessage), c1)
                | some b =>
                    if jsTruthy b then (.ok b, SimpleCache.set c1 now key b 60000)
                    else (.error (some noAccountMessage), c1)
          else (.error (some noAccountMessage), c1)

/-- Transcribes getBalance: probe the cache under the balance key and
return a truthy hit; otherwise (after the upstream request, whose decoded
body is resp) run the account extraction and cache store of
getBalanceAfterMiss.  The outcome pairs the result (error none models a
thrown TypeError, error (some m) the explicit Error m) with the final
cache. -/
def effectiveAccountId (accountId : Option String) : Option String :=
  match accountId with
  | some a => if a = "" then none else some a
  | none => none

def getBalance (c : SimpleCache String Json) (now : Nat) (accountId : Option String)
    (resp : Json) : Except (Option String) Json × SimpleCache String Json :=
  let aid : Option String := effectiveAccountId accountId
  let key := balanceCacheKey accountId
  let g := SimpleCache.get c now key
  match g.1 with
  | some v =>
      if jsTruthy v then (.ok v, g.2)
      else getBalanceAfterMiss g.2 now key aid resp
  | none => getBalanceAfterMiss g.2 now key aid resp

theorem cache_get_snd_frame {K V : Type} [DecidableEq K] (c : SimpleCache K V) (now : Nat)
    (k k2 : K) (h : k2 ≠ k) :
    jsMapGet (SimpleCache.get c now k).2.store k2 = jsMapGet c.store k2 := by
  unfold SimpleCache.get
  rcases hq : jsMapGet c.store k with _ | e
  · rfl
  · by_cases hexp : e.expiresAt ≤ now
    · simp [hexp, jsMapGet_delete_ne k k2 h c.store]
    · simp [hexp]

theorem cache_get_of_none {K V : Type} [DecidableEq K] (c : SimpleCache K V) (now : Nat)
    (k : K) (h : jsMapGet c.store k = none) : (SimpleCache.get c now k).2 = c := by
  unfold SimpleCache.get
  rw [h]

theorem getBalanceAfterMiss_cases (c1 : SimpleCache String Json) (now : Nat) (key : String)
    (aid : Option String) (resp : Json) :
    (getBalanceAfterMiss c1 now key aid resp).2 = c1
    ∨ ∃ b, (getBalanceAfterMiss c1 now key aid resp).1 = .ok b
         ∧ (getBalanceAfterMiss c1 now key aid resp).2 = SimpleCache.set c1 now key b 60000 := by
  unfold getBalanceAfterMiss
  repeat' split
  all_goals first
    | exact Or.inl rfl
    | exact Or.inr ⟨_, rfl, rfl⟩

/-- C10: when getBalance fails (no matching account, no default or first
account, or a missing balance field), the cache after the call is
exactly the cache after the initial probe: nothing is stored — every key
other than the balance key is untouched, and when the balance key was
absent before the call it is still absent after it; a balance value is
written (under the balance key, for 60000 ms) only when the call
succeeds or was already cached. -/
theorem getBalance_cache_discipline (c : SimpleCache String Json) (now : Nat)
    (accountId : Option String) (resp : Json) :
    (∀ e, (getBalance c now accountId resp).1 = .error e →
        ((getBalance c now accountId resp).2
            = (SimpleCache.get c now (balanceCacheKey accountId)).2
          ∧ (∀ k2, k2 ≠ balanceCacheKey accountId →
              jsMapGet (getBalance c now accountId resp).2.store k2 = jsMapGet c.store k2)
          ∧ (jsMapGet c.store (balanceCacheKey accountId) = none →
              jsMapGet (getBalance c now accountId resp).2.store (balanceCacheKey accountId)
                = none)))
    ∧ (∀ b, (getBalance c now accountId resp).1 = .ok b →
        ((getBalance c now accountId resp).2
            = (SimpleCache.get c now (balanceCacheKey accountId)).2
          ∨ (getBalance c now accountId resp).2
              = SimpleCache.set (SimpleCache.get c now (balanceCacheKey accountId)).2 now
                  (balanceCacheKey accountId) b 60000)) := by
  have hframe : ∀ k2, k2 ≠ balanceCacheKey accountId →
      jsMapGet (SimpleCache.get c now (balanceCacheKey accountId)).2.store k2
        = jsMapGet c.store k2 :=
    fun k2 h2 => cache_get_snd_frame c now (balanceCacheKey accountId) k2 h2
  have hrw : getBalance c now accountId resp
      = (match (SimpleCache.get c now (balanceCacheKey accountId)).1 with
         | some v =>
             if jsTruthy v then
               (.ok v, (SimpleCache.get c now (balanceCacheKey accountId)).2)
             else
               getBalanceAfterMiss (SimpleCache.get c now (balanceCacheKey accountId)).2 now
                 (balanceCacheKey accountId) (effectiveAccountId accountId) resp
         | none =>
             getBalanceAfterMiss (SimpleCache.get c now (balanceCacheKey accountId)).2 now
               (balanceCacheKey accountId) (effectiveAccountId accountId) resp) := rfl
  have hmiss :
      (getBalance c now accountId resp
          = getBalanceAfterMiss (SimpleCache.get c now (balanceCacheKey accountId)).2 now
              (balanceCacheKey accountId) (effectiveAccountId accountId) resp)
      → ((∀ e, (getBalance c now accountId resp).1 = .error e →
            ((getBalance c now accountId resp).2
                = (SimpleCache.get c now (balanceCacheKey accountId)).2
              ∧ (∀ k2, k2 ≠ balanceCacheKey accountId →
                  jsMapGet (getBalance c now accountId resp).2.store k2 = jsMapGet c.store k2)
              ∧ (jsMapGet c.store (balanceCacheKey accountId) = none →
                  jsMapGet (getBalance c now accountId resp).2.store (balanceCacheKey accountId)
                    = none)))
          ∧ (∀ b, (getBalance c now accountId resp).1 = .ok b →
              ((getBalance c now accountId resp).2
                  = (SimpleCache.get c now (balanceCacheKey accountId)).2
                ∨ (getBalance c now accountId resp).2
                    = SimpleCache.set (SimpleCache.get c now (balanceCacheKey accountId)).2 now
                        (balanceCacheKey accountId) b 60000))) := by
    intro heq
    rcases getBalanceAfterMiss_cases (SimpleCache.get c now (balanceCacheKey accountId)).2 now
        (balanceCacheKey accountId) (effectiveAccountId accountId) resp with hc1 | ⟨b0, hok, hset⟩
    · constructor
      · intro e he
        refine ⟨(congrArg Prod.snd heq).trans hc1, ?_, ?_⟩
        · intro k2 h2
          rw [heq, hc1]
          exact hframe k2 h2
        · intro hn
          rw [heq, hc1, cache_get_of_none c now (balanceCacheKey accountId) hn]
          exact hn
      · intro b hb
        exact Or.inl ((congrArg Prod.snd heq).trans hc1)
    · constructor
      · intro e he
        rw [heq, hok] at he
        exact Except.noConfusion he
      · intro b hb
        rw [heq] at hb
        rw [hok] at hb
        injection hb with hbb
        subst hbb
        exact Or.inr ((congrArg Prod.snd heq).trans hset)
  rcases hcases : (SimpleCache.get c now (balanceCacheKey accountId)).1 with _ | v
  · exact hmiss (by rw [hrw, hcases])
  · by_cases htv : jsTruthy v
    · have heq : getBalance c now accountId resp
          = (.ok v, (SimpleCache.get c now (balanceCacheKey accountId)).2) := by
        rw [hrw, hcases]
        simp [htv]
      constructor
      · intro e he
        rw [heq] at he
        exact Except.noConfusion he
      · intro b hb
        rw [heq] at hb ⊢
        exact Or.inl rfl
    · refine hmiss ?_
      rw [hrw, hcases]
      simp [htv]

/-- Witness for C10: an upstream response with an empty accounts array
makes getBalance throw the no-account error and leaves the empty cache
empty, with nothing stored under the balance key. -/
theorem getBalance_cache_discipline_witness :
    (getBalance ⟨[]⟩ 0 none (.obj (.cons "accounts" (.arr .nil) .nil))).1
        = .error (some noAccountMessage)
    ∧ (getBalance ⟨[]⟩ 0 none (.obj (.cons "accounts" (.arr .nil) .nil))).2
        = (SimpleCache.get (⟨[]⟩ : SimpleCache String Json) 0 (balanceCacheKey none)).2
    ∧ jsMapGet (getBalance ⟨[]⟩ 0 none
          (.obj (.cons "accounts" (.arr .nil) .nil))).2.store (balanceCacheKey none) = none := by
  have h := (getBalance_cache_discipline ⟨[]⟩ 0 none
      (.obj (.cons "accounts" (.arr .nil) .nil))).1 (some noAccountMessage) rfl
  exact ⟨rfl, h.1, h.2.2 rfl⟩
